import Mathlib

/-!
Verification development for the ComputerManager tool-calling core:
the security pipeline (permissions, confirmation cache, audit log,
middleware) and the agent orchestration loop, shallowly embedded from
the Python sources under `src/`.
-/

namespace ComputerManager

/-! ## Parameter values

Python parameter structures passed to tools: a value is an opaque scalar
(string, number, bool rendered as text), a dictionary with string keys, or
a list.  This mirrors exactly the shapes `AuditLogger.sanitize_parameters`
distinguishes with `isinstance(value, dict)` / `isinstance(value, list)`.
-/

inductive PValue where
  | prim : String → PValue
  | dict : List (String × PValue) → PValue
  | arr : List PValue → PValue
deriving Repr

/-- `AuditLogger.SENSITIVE_KEYS` from `src/security/audit_log.py`. -/
def SENSITIVE_KEYS : List String :=
  ["password", "passwd", "pwd", "secret", "token", "api_key",
   "apikey", "auth", "authorization", "credential", "private_key"]

/-- Python's `in` on strings: whether `pat` occurs contiguously in `s`. -/
def charsContain (pat : List Char) : List Char → Bool
  | [] => pat.isEmpty
  | c :: rest => pat.isPrefixOf (c :: rest) || charsContain pat rest

/-- Python `str.lower()`, character by character (the identifiers involved
are ASCII). -/
def strLower (s : String) : String := ⟨s.data.map Char.toLower⟩

/-- Python `any(sensitive in key_lower for sensitive in SENSITIVE_KEYS)`:
substring containment of a sensitive word in the lower-cased key. -/
def isSensitiveKey (key : String) : Bool :=
  SENSITIVE_KEYS.any (fun s => charsContain s.data (strLower key).data)

mutual

/-- `AuditLogger.sanitize_parameters` from `src/security/audit_log.py`:
walks the entries of a parameter dictionary; a key containing a sensitive
word is redacted, nested dictionaries are recursed into, lists have their
dictionary elements recursed into, every other value passes unchanged. -/
def sanitize_parameters : List (String × PValue) → List (String × PValue)
  | [] => []
  | (k, v) :: rest => (k, sanitizeValue k v) :: sanitize_parameters rest

/-- One entry of the `for key, value in params.items()` loop body. -/
def sanitizeValue (k : String) (v : PValue) : PValue :=
  if isSensitiveKey k then .prim "[REDACTED]"
  else
    match v with
    | .dict d => .dict (sanitize_parameters d)
    | .arr xs => .arr (sanitizeList xs)
    | .prim s => .prim s

/-- The list comprehension: `sanitize_parameters(item) if isinstance(item, dict)
else item` (the non-dict cases are spelled out constructor by constructor). -/
def sanitizeList : List PValue → List PValue
  | [] => []
  | .dict d :: rest => .dict (sanitize_parameters d) :: sanitizeList rest
  | .prim s :: rest => .prim s :: sanitizeList rest
  | .arr ys :: rest => .arr ys :: sanitizeList rest

end

/-- Whether a value is exactly the redaction marker. -/
def isRedacted : PValue → Bool
  | .prim s => s == "[REDACTED]"
  | _ => false

mutual

/-- The redaction guarantee the code actually establishes (the dictionary
entries, dictionaries nested in dictionaries, and dictionaries that are
direct elements of a list): every sensitive key maps to the marker. -/
def cleanDict : List (String × PValue) → Bool
  | [] => true
  | (k, v) :: rest =>
      (if isSensitiveKey k then isRedacted v else cleanValue v) && cleanDict rest

def cleanValue : PValue → Bool
  | .prim _ => true
  | .dict d => cleanDict d
  | .arr xs => cleanList xs

def cleanList : List PValue → Bool
  | [] => true
  | .dict d :: rest => cleanDict d && cleanList rest
  | .prim _ :: rest => cleanList rest
  | .arr _ :: rest => cleanList rest

end

mutual

/-- Modelled from the spec: the spec's stronger redaction property, that a
sensitive key is redacted "at every nesting depth of the structure",
including dictionaries reached only through nested lists. -/
def deepCleanDict : List (String × PValue) → Bool
  | [] => true
  | (k, v) :: rest =>
      (if isSensitiveKey k then isRedacted v else deepCleanValue v) && deepCleanDict rest

def deepCleanValue : PValue → Bool
  | .prim _ => true
  | .dict d => deepCleanDict d
  | .arr xs => deepCleanList xs

def deepCleanList : List PValue → Bool
  | [] => true
  | x :: rest => deepCleanValue x && deepCleanList rest

end

/-! ## Permission levels

From `src/security/permissions.py`.
-/

inductive PermissionLevel where
  | basic
  | advanced
  | admin
deriving DecidableEq, Repr

/-- The `.value` of each `PermissionLevel` enum member. -/
def PermissionLevel.value : PermissionLevel → String
  | .basic => "basic"
  | .advanced => "advanced"
  | .admin => "admin"

/-- `PermissionManager.TOOL_PERMISSIONS`, transcribed entry for entry. -/
def TOOL_PERMISSIONS : List (String × PermissionLevel) :=
  [("read_file", .basic),
   ("list_directory", .basic),
   ("search_files", .basic),
   ("get_file_info", .basic),
   ("list_processes", .basic),
   ("get_process_info", .basic),
   ("open_url", .basic),
   ("search_web", .basic),
   ("capture_screenshot", .basic),
   ("describe_screen", .basic),
   ("get_screen_size", .basic),
   ("get_pixel_color", .basic),
   ("locate_image_on_screen", .basic),
   ("get_system_info", .basic),
   ("echo", .basic),
   ("get_time", .basic),
   ("write_file", .advanced),
   ("move_file", .advanced),
   ("launch_application", .advanced),
   ("click_mouse", .advanced),
   ("type_text", .advanced),
   ("press_key", .advanced),
   ("hotkey", .advanced),
   ("drag_mouse", .advanced),
   ("move_mouse", .advanced),
   ("scroll_mouse", .advanced),
   ("read_registry_key", .advanced),
   ("get_environment_variable", .advanced),
   ("delete_file", .admin),
   ("kill_process", .admin),
   ("write_registry_key", .admin),
   ("delete_registry_key", .admin),
   ("windows_shutdown", .admin),
   ("windows_service_control", .admin),
   ("windows_volume_control", .admin),
   ("set_environment_variable", .admin),
   ("linux_systemd_control", .admin),
   ("linux_service_control", .admin),
   ("linux_service_status", .admin),
   ("linux_package_manager", .admin),
   ("macos_system_preferences", .admin),
   ("macos_service_control", .admin)]

/-- `PermissionManager.get_tool_permission_level`:
`TOOL_PERMISSIONS.get(tool_name, PermissionLevel.ADVANCED)`. -/
def get_tool_permission_level (tool_name : String) : PermissionLevel :=
  (TOOL_PERMISSIONS.lookup tool_name).getD .advanced

/-- The `level_hierarchy` dictionary inside `check_permission`. -/
def level_hierarchy : PermissionLevel → Nat
  | .basic => 0
  | .advanced => 1
  | .admin => 2

/-- `PermissionManager.check_permission`: resolve the required level (the
static lookup when no override is passed) and compare ordinal ranks,
`level_hierarchy[current] >= level_hierarchy[required]`. -/
def check_permission (current : PermissionLevel) (tool_name : String)
    (required_level : Option PermissionLevel) : Bool :=
  let required :=
    match required_level with
    | none => get_tool_permission_level tool_name
    | some r => r
  Nat.ble (level_hierarchy required) (level_hierarchy current)

/-- `PermissionManager._parse_permission_level`: `PermissionLevel(level_str.lower())`
with `ValueError` defaulting to `BASIC`. -/
def parse_permission_level (level_str : String) : PermissionLevel :=
  let l := strLower level_str
  if l = "basic" then .basic
  else if l = "advanced" then .advanced
  else if l = "admin" then .admin
  else .basic

/-! ## Confirmation manager

From `src/security/confirmation_dialog.py`.  The decision cache maps a tool
name to `(decision, expiry)`; the modal dialog is the external prompt
collaborator, modelled as the pair `(user_decision, remember_choice)` it
returns.  Wall-clock time is an explicit `Nat` parameter.
-/

/-- The decision cache `_decision_cache : Dict[str, tuple[bool, float]]`. -/
abbrev DecisionCache := List (String × (Bool × Nat))

/-- Python dictionary assignment `cache[k] = v`: replace the entry when the
key is present, append it otherwise. -/
def dictSet (c : DecisionCache) (k : String) (v : Bool × Nat) : DecisionCache :=
  if c.any (fun p => p.1 == k) then
    c.map (fun p => if p.1 == k then (k, v) else p)
  else c ++ [(k, v)]

/-- `ConfirmationManager.cache_decision`: store `(decision, now + duration)`. -/
def cache_decision (c : DecisionCache) (tool_name : String) (decision : Bool)
    (now duration : Nat) : DecisionCache :=
  dictSet c tool_name (decision, now + duration)

/-- `ConfirmationManager.get_cached_decision`: a missing key yields `none`;
an expired entry (`now > expiry`) is deleted and yields `none`; otherwise
the cached decision is returned.  The cache after the call is returned too,
because expiry deletes the entry. -/
def get_cached_decision (c : DecisionCache) (tool_name : String) (now : Nat) :
    Option Bool × DecisionCache :=
  match c.lookup tool_name with
  | none => (none, c)
  | some (decision, expiry) =>
      if now > expiry then (none, c.filter (fun p => p.1 != tool_name))
      else (some decision, c)

/-- `ConfirmationManager.clear_cache`. -/
def clear_cache (_ : DecisionCache) : DecisionCache := []

/-- The `sensitive_keywords` list inside `is_confirmation_required`. -/
def sensitive_keywords : List String :=
  ["delete", "kill", "shutdown", "write", "move",
   "type", "click", "press", "hotkey", "drag",
   "registry", "service", "system"]

/-- `ConfirmationManager.is_confirmation_required`: the global switch, then
the per-class switch combined with the keyword heuristic on the lower-cased
tool name. -/
def is_confirmation_required (require_confirmation : Bool)
    (sensitive_actions_require_confirmation : Bool) (tool_name : String) : Bool :=
  if !require_confirmation then false
  else if sensitive_actions_require_confirmation then
    sensitive_keywords.any (fun kw => charsContain kw.data (strLower tool_name).data)
  else false

/-- Result of `request_confirmation`: the decision, the cache afterwards,
and whether the prompt collaborator (the modal dialog) was invoked. -/
structure ConfirmOutcome where
  decision : Bool
  cache : DecisionCache
  prompted : Bool
deriving Repr

/-- `ConfirmationManager._cache_duration`. -/
def CACHE_DURATION : Nat := 3600

/-- `ConfirmationManager.request_confirmation`: an unexpired cache hit
short-circuits without prompting; on a miss the dialog runs and, when the
user asked to remember, the decision is cached with the fixed TTL. -/
def request_confirmation (c : DecisionCache) (tool_name : String) (now : Nat)
    (prompt : Bool × Bool) : ConfirmOutcome :=
  let g := get_cached_decision c tool_name now
  match g.1 with
  | some cached => ⟨cached, g.2, false⟩
  | none =>
      let c1 := if prompt.2 then cache_decision g.2 tool_name prompt.1 now CACHE_DURATION
                else g.2
      ⟨prompt.1, c1, true⟩

/-! ## Audit logger

From `src/security/audit_log.py`.  Entries live in an in-order list; every
write no-ops when auditing is disabled.
-/

inductive AuditEntry where
  | toolExecution (tool_name : String) (parameters : List (String × PValue))
      (info : String) (success : Bool) (user_confirmed : Bool) (execution_time : Nat)
  | permissionDenied (tool_name required_level current_level : String)
  | elevationRequest (success : Bool) (reason : String)
  | userConfirmation (tool_name : String) (confirmed : Bool) (cached : Bool)
deriving Repr

/-- Result-summary truncation in `log_tool_execution`: beyond 500 characters
the text is cut and marked. -/
def truncateResult (s : String) : String :=
  if s.length > 500 then s.take 500 ++ "... [truncated]" else s

/-- `AuditLogger.log_tool_execution`: sanitizes the parameters; on success
the entry carries the truncated result summary, on failure the raw error
string. -/
def log_tool_execution (enabled : Bool) (log : List AuditEntry) (tool_name : String)
    (parameters : List (String × PValue)) (info : String) (success : Bool)
    (user_confirmed : Bool) (execution_time : Nat) : List AuditEntry :=
  if enabled then
    log ++ [.toolExecution tool_name (sanitize_parameters parameters)
      (if success then truncateResult info else info) success user_confirmed execution_time]
  else log

/-- `AuditLogger.log_permission_denied`. -/
def log_permission_denied (enabled : Bool) (log : List AuditEntry)
    (tool_name required_level current_level : String) : List AuditEntry :=
  if enabled then log ++ [.permissionDenied tool_name required_level current_level]
  else log

/-- `AuditLogger.log_elevation_request`. -/
def log_elevation_request (enabled : Bool) (log : List AuditEntry)
    (success : Bool) (reason : String) : List AuditEntry :=
  if enabled then log ++ [.elevationRequest success reason] else log

/-- `AuditLogger.log_user_confirmation`. -/
def log_user_confirmation (enabled : Bool) (log : List AuditEntry)
    (tool_name : String) (confirmed : Bool) (cached : Bool) : List AuditEntry :=
  if enabled then log ++ [.userConfirmation tool_name confirmed cached] else log

/-- Number of `permission_denied` entries in a log. -/
def countPermissionDenied : List AuditEntry → Nat
  | [] => 0
  | .permissionDenied _ _ _ :: rest => countPermissionDenied rest + 1
  | _ :: rest => countPermissionDenied rest

/-- Number of `tool_execution` entries in a log. -/
def countToolExecution : List AuditEntry → Nat
  | [] => 0
  | .toolExecution _ _ _ _ _ _ :: rest => countToolExecution rest + 1
  | _ :: rest => countToolExecution rest

/-! ## Security middleware

From `src/security/middleware.py`.  The OS-level collaborators are explicit
oracles: `elevation_succeeds` is the outcome `request_elevation()` would
produce (platform UAC/sudo flow), the prompt pair is what the confirmation
dialog would return, and `exec_duration` stands for the measured
`time.time() - start_time`.  The tool body is the `invoke` outcome: a
result value or a raised error.
-/

structure MWConfig where
  current_level : PermissionLevel
  elevation_succeeds : Bool
  require_confirmation : Bool
  sensitive_actions_require_confirmation : Bool
  audit_enabled : Bool
  prompt_decision : Bool
  prompt_remember : Bool
  now : Nat
  exec_duration : Nat
deriving Repr

/-- The two failure modes `execute_with_security` lets escape: the
`PermissionError` it raises itself, and a re-raised tool exception. -/
inductive MWError where
  | permissionError (msg : String)
  | toolError (msg : String)
deriving Repr

/-- What a tool body can raise.  The middleware's handlers distinguish the
two: `except PermissionError: raise` comes before `except Exception`, so a
`PermissionError` raised inside `tool.execute` is re-raised by the first
handler, while every other exception falls to the second. -/
inductive ToolException where
  | permissionError (msg : String)
  | exception (msg : String)
deriving Repr

structure MWResult where
  result : Except MWError PValue
  audit : List AuditEntry
  cache : DecisionCache
  invoked : Bool
  prompted : Bool

/-- A crude stand-in for Python `str(result)` used only when logging a
successful result; no claim depends on its exact rendering. -/
def pvStr : PValue → String
  | .prim s => s
  | .dict _ => "<dict>"
  | .arr _ => "<list>"

/-- The structured result returned when the user denies confirmation. -/
def cancelledResult (error_msg : String) : PValue :=
  .dict [("success", .prim "False"),
         ("error", .prim error_msg),
         ("message", .prim "Action cancelled by user")]

/-- Steps 9-11 of `execute_with_security`: run the tool, log the outcome,
return the result or re-raise the exception.  A tool-raised
`PermissionError` is caught by `except PermissionError: raise`, which
precedes the logging `except Exception` handler, so it is re-raised with
NO `ToolExecution` entry; every other exception is logged as a failed
execution and then re-raised. -/
def mwExecTool (cfg : MWConfig) (cache : DecisionCache) (log : List AuditEntry)
    (tool_name : String) (params : List (String × PValue))
    (invoke : Except ToolException PValue) (user_confirmed prompted : Bool) : MWResult :=
  match invoke with
  | .ok r =>
      let log1 := log_tool_execution cfg.audit_enabled log tool_name params
        (pvStr r) true user_confirmed cfg.exec_duration
      ⟨.ok r, log1, cache, true, prompted⟩
  | .error (.permissionError msg) =>
      ⟨.error (.permissionError msg), log, cache, true, prompted⟩
  | .error (.exception e) =>
      let log1 := log_tool_execution cfg.audit_enabled log tool_name params
        e false user_confirmed cfg.exec_duration
      ⟨.error (.toolError e), log1, cache, true, prompted⟩

/-- Steps 6-11 of `execute_with_security` (reached once the permission gate
has passed): the confirmation check, the user-denial conversion into a
normal cancelled result, then tool execution. -/
def mwConfirmAndRun (cfg : MWConfig) (cache : DecisionCache) (log : List AuditEntry)
    (tool_name : String) (params : List (String × PValue))
    (invoke : Except ToolException PValue) : MWResult :=
  if is_confirmation_required cfg.require_confirmation
      cfg.sensitive_actions_require_confirmation tool_name then
    let rc := request_confirmation cache tool_name cfg.now
      (cfg.prompt_decision, cfg.prompt_remember)
    let log1 := log_user_confirmation cfg.audit_enabled log tool_name rc.decision false
    if rc.decision then
      mwExecTool cfg rc.cache log1 tool_name params invoke true rc.prompted
    else
      let error_msg := "User denied execution of " ++ tool_name
      let log2 := log_tool_execution cfg.audit_enabled log1 tool_name params
        error_msg false false cfg.exec_duration
      ⟨.ok (cancelledResult error_msg), log2, rc.cache, false, rc.prompted⟩
  else
    mwExecTool cfg cache log tool_name params invoke false false

/-- `SecurityMiddleware.execute_with_security`: the permission gate (with
the Admin-only elevation attempt and the post-elevation re-check of the
configured level), then confirmation and execution. -/
def execute_with_security (cfg : MWConfig) (cache : DecisionCache)
    (log : List AuditEntry) (tool_name : String) (params : List (String × PValue))
    (invoke : Except ToolException PValue) : MWResult :=
  let required := get_tool_permission_level tool_name
  if check_permission cfg.current_level tool_name (some required) then
    mwConfirmAndRun cfg cache log tool_name params invoke
  else if required = .admin then
    let log1 := log_elevation_request cfg.audit_enabled log cfg.elevation_succeeds
      ("Required for " ++ tool_name)
    if !cfg.elevation_succeeds then
      let log2 := log_permission_denied cfg.audit_enabled log1 tool_name
        required.value cfg.current_level.value
      ⟨.error (.permissionError
        ("Permission denied: " ++ tool_name ++ " requires " ++ required.value ++
         " level, current level is " ++ cfg.current_level.value ++
         ". Privilege elevation failed.")), log2, cache, false, false⟩
    else if cfg.current_level ≠ .admin then
      let log2 := log_permission_denied cfg.audit_enabled log1 tool_name
        required.value cfg.current_level.value
      ⟨.error (.permissionError
        ("Permission denied: " ++ tool_name ++ " requires admin permission level. " ++
         "Current configured level is " ++ cfg.current_level.value ++
         ". Elevation succeeded but permission level configuration prevents execution.")),
       log2, cache, false, false⟩
    else
      mwConfirmAndRun cfg cache log1 tool_name params invoke
  else
    let log1 := log_permission_denied cfg.audit_enabled log tool_name
      required.value cfg.current_level.value
    ⟨.error (.permissionError
      ("Permission denied: " ++ tool_name ++ " requires " ++ required.value ++
       " level, current level is " ++ cfg.current_level.value)), log1, cache, false, false⟩

/-! ## Tool registry

From `src/agent/tool_registry.py`.  The registry is the dictionary
`_tools : Dict[str, Tool]`, modelled as an association list with unique
keys (insertion order is a dictionary detail).
-/

structure ToolDesc where
  name : String
  description : String
deriving Repr, DecidableEq

/-- `ToolRegistry.register`: raising `ValueError` on a duplicate name is the
`.error` outcome; the mapping after the call is returned alongside. -/
def registry_register (reg : List (String × ToolDesc)) (tool : ToolDesc) :
    Except String Unit × List (String × ToolDesc) :=
  if reg.any (fun p => p.1 == tool.name) then
    (.error ("Tool '" ++ tool.name ++ "' is already registered"), reg)
  else
    (.ok (), reg ++ [(tool.name, tool)])

/-- `ToolRegistry.get`: `self._tools.get(name)`, absence is not an error. -/
def registry_get (reg : List (String × ToolDesc)) (name : String) : Option ToolDesc :=
  reg.lookup name

/-! ## Agent loop

From `src/agent/core.py`.  The model backend is the collaborator
`ollama_client.chat_with_tools`, modelled as a function from the current
history to either an exception (`.error`) or an assistant message; tool
execution is a collaborator too (each tool behind the registry resolves to
an outcome: a value, a raised error, or a timeout of `asyncio.wait_for`).
-/

/-- One tool-call request from the model: `{id, function: {name, arguments}}`.
`arguments` is the outcome of `json.loads` on the serialized arguments
(`none` = parse failure, which the code tolerates as `{}`). -/
structure ToolCall where
  id : String
  fname : String
  arguments : Option (List (String × PValue))
deriving Repr

/-- A conversation message, the dictionary shape the agent appends. -/
structure Msg where
  role : String
  content : String
  tool_calls : List ToolCall := []
  tool_call_id : Option String := none
  name : Option String := none
deriving Repr

/-- How a tool body behind the registry finishes under `asyncio.wait_for`. -/
inductive ToolOutcome where
  | ok (v : PValue)
  | err (msg : String)
  | timeout
deriving Repr

/-- The agent's tool environment: registry lookup composed with execution. -/
abbrev AgentTools := String → Option (List (String × PValue) → ToolOutcome)

/-- `Agent._format_tool_result`: a `role: tool` message correlated by id. -/
def format_tool_result (tool_call_id tool_name result_str : String) : Msg :=
  { role := "tool", content := result_str,
    tool_call_id := some tool_call_id, name := some tool_name }

/-- `Agent._format_tool_error`. -/
def format_tool_error (tool_call_id tool_name error : String) : Msg :=
  { role := "tool",
    content := "Error executing tool '" ++ tool_name ++ "': " ++ error,
    tool_call_id := some tool_call_id, name := some tool_name }

/-- `Agent._execute_tool_call`: parse arguments tolerantly, look the tool up
(not-found becomes a synthesized error result), execute with the timeout,
and append exactly one tool message to the history. -/
def execute_tool_call (timeout_s : Nat) (tools : AgentTools) (tc : ToolCall)
    (hist : List Msg) : List Msg :=
  let arguments := tc.arguments.getD []
  match tools tc.fname with
  | none =>
      hist ++ [format_tool_error tc.id tc.fname
        ("Tool '" ++ tc.fname ++ "' not found in registry")]
  | some run =>
      match run arguments with
      | .ok r => hist ++ [format_tool_result tc.id tc.fname (pvStr r)]
      | .err e => hist ++ [format_tool_error tc.id tc.fname e]
      | .timeout => hist ++ [format_tool_error tc.id tc.fname
          ("Tool execution timed out after " ++ toString timeout_s ++ "s")]

/-- The `for tool_call in tool_calls` loop of one iteration. -/
def execute_calls (timeout_s : Nat) (tools : AgentTools) :
    List ToolCall → List Msg → List Msg
  | [], hist => hist
  | tc :: rest, hist => execute_calls timeout_s tools rest (execute_tool_call timeout_s tools tc hist)

/-- The fixed apology returned when `max_iterations` is exhausted. -/
def MAX_ITERATIONS_MESSAGE : String :=
  "I apologize, but I've reached the maximum number of tool execution steps. Please try rephrasing your request."

/-- The model backend collaborator: history in, assistant message or raised
exception out. -/
abbrev Backend := List Msg → Except String Msg

/-- The `for iteration in range(self.max_iterations)` loop of
`Agent.process_message`.  Returns the final text, the history, and the
number of model calls made. -/
def process_turn (backend : Backend) (timeout_s : Nat) (tools : AgentTools) :
    Nat → List Msg → Nat → String × List Msg × Nat
  | 0, hist, calls => (MAX_ITERATIONS_MESSAGE, hist, calls)
  | fuel + 1, hist, calls =>
      match backend hist with
      | .error e =>
          let error_message := "An error occurred: " ++ e
          (error_message,
           hist ++ [{ role := "assistant", content := error_message }],
           calls + 1)
      | .ok message =>
          let hist1 := hist ++ [message]
          if message.tool_calls.isEmpty then
            (message.content, hist1, calls + 1)
          else
            process_turn backend timeout_s tools fuel
              (execute_calls timeout_s tools message.tool_calls hist1) (calls + 1)

/-- `Agent.process_message`: append the user message, then iterate. -/
def process_message (backend : Backend) (timeout_s : Nat) (tools : AgentTools)
    (max_iterations : Nat) (hist : List Msg) (user_message : String) :
    String × List Msg × Nat :=
  process_turn backend timeout_s tools max_iterations
    (hist ++ [{ role := "user", content := user_message }]) 0

/-- `Agent.clear_history`: keep only messages whose role is `system`. -/
def clear_history (hist : List Msg) : List Msg :=
  hist.filter (fun msg => msg.role == "system")

/-! ## Chat window history truncation

From `src/gui/chat_window.py`.  `add_user_message` / `add_assistant_message`
append and then enforce the cap with the Python slice
`history[-max_history:]` (which, for `max_history = 0`, is the whole list).
-/

/-- Python `lst[-k:]`. -/
def pyTailSlice (l : List Msg) (k : Nat) : List Msg :=
  if k = 0 then l else l.drop (l.length - k)

/-- The `if len(...) > max_history` truncation shared by both appenders. -/
def enforce_max_history (hist : List Msg) (max_history : Nat) : List Msg :=
  if hist.length > max_history then pyTailSlice hist max_history else hist

/-- `ChatWindow.add_user_message` (history part). -/
def add_user_message (hist : List Msg) (max_history : Nat) (message : String) :
    List Msg :=
  enforce_max_history (hist ++ [({ role := "user", content := message } : Msg)]) max_history

/-- `ChatWindow.add_assistant_message` (history part). -/
def add_assistant_message (hist : List Msg) (max_history : Nat) (message : String) :
    List Msg :=
  enforce_max_history (hist ++ [{ role := "assistant", content := message }]) max_history

/-! ## Helper lemmas -/

theorem countPermissionDenied_append (l1 l2 : List AuditEntry) :
    countPermissionDenied (l1 ++ l2) =
      countPermissionDenied l1 + countPermissionDenied l2 := by
  induction l1 with
  | nil => simp [countPermissionDenied]
  | cons hd t ih =>
      cases hd with
      | permissionDenied a b c =>
          simp [countPermissionDenied, ih]
          omega
      | toolExecution a b c d e f => simp [countPermissionDenied, ih]
      | elevationRequest a b => simp [countPermissionDenied, ih]
      | userConfirmation a b c => simp [countPermissionDenied, ih]

theorem countToolExecution_append (l1 l2 : List AuditEntry) :
    countToolExecution (l1 ++ l2) =
      countToolExecution l1 + countToolExecution l2 := by
  induction l1 with
  | nil => simp [countToolExecution]
  | cons hd t ih =>
      cases hd with
      | toolExecution a b c d e f =>
          simp [countToolExecution, ih]
          omega
      | permissionDenied a b c => simp [countToolExecution, ih]
      | elevationRequest a b => simp [countToolExecution, ih]
      | userConfirmation a b c => simp [countToolExecution, ih]

theorem getLast?_append_one {α : Type} (l : List α) (a : α) :
    (l ++ [a]).getLast? = some a := by
  induction l with
  | nil => rfl
  | cons hd t ih =>
      cases ht : t ++ [a] with
      | nil => exact absurd ht (by simp)
      | cons b u =>
          rw [List.cons_append, ht, List.getLast?_cons_cons, ← ht]
          exact ih

/-! ## C2: permission check is an ordinal-rank comparison -/

/-- C2: for every configured current level L and every tool name,
`check_permission` (with no override) returns true iff the ordinal rank of
L is at least the rank of the tool's required level, and a name absent from
the static mapping has required level Advanced. -/
theorem check_permission_iff_rank (L : PermissionLevel) (tool_name : String) :
    (check_permission L tool_name none = true ↔
      level_hierarchy (get_tool_permission_level tool_name) ≤ level_hierarchy L) ∧
    (TOOL_PERMISSIONS.lookup tool_name = none →
      get_tool_permission_level tool_name = .advanced) := by
  constructor
  · rw [show check_permission L tool_name none
        = Nat.ble (level_hierarchy (get_tool_permission_level tool_name))
            (level_hierarchy L) from rfl,
      Nat.ble_eq]
  · intro h
    rw [get_tool_permission_level, h]
    rfl

theorem check_permission_iff_rank_witness :
    TOOL_PERMISSIONS.lookup "frobnicate" = none ∧
    get_tool_permission_level "frobnicate" = .advanced ∧
    check_permission .advanced "frobnicate" none = true :=
  ⟨by rfl,
   (check_permission_iff_rank .advanced "frobnicate").2 (by rfl),
   ((check_permission_iff_rank .advanced "frobnicate").1).mpr (by decide)⟩

/-! ## C10: invalid configured level strings fall back to Basic -/

/-- C10: a configured permission-level string that is not (case-insensitively)
basic, advanced or admin parses to Basic, so every tool requiring Advanced
or Admin is denied. -/
theorem invalid_level_parses_to_basic (s : String)
    (h1 : strLower s ≠ "basic") (h2 : strLower s ≠ "advanced")
    (h3 : strLower s ≠ "admin") :
    parse_permission_level s = .basic ∧
    ∀ tool_name, get_tool_permission_level tool_name ≠ .basic →
      check_permission (parse_permission_level s) tool_name none = false := by
  have hp : parse_permission_level s = .basic := by
    rw [parse_permission_level]
    simp only [h1, h2, h3, if_false]
  refine ⟨hp, fun tool_name ht => ?_⟩
  rw [hp, check_permission]
  cases hr : get_tool_permission_level tool_name with
  | basic => exact absurd hr ht
  | advanced => rfl
  | admin => rfl

theorem invalid_level_parses_to_basic_witness :
    strLower "superuser" ≠ "basic" ∧
    get_tool_permission_level "delete_file" ≠ PermissionLevel.basic ∧
    parse_permission_level "superuser" = .basic ∧
    check_permission (parse_permission_level "superuser") "delete_file" none = false :=
  ⟨by decide, by decide,
   (invalid_level_parses_to_basic "superuser" (by decide) (by decide) (by decide)).1,
   (invalid_level_parses_to_basic "superuser" (by decide) (by decide) (by decide)).2
     "delete_file" (by decide)⟩

/-! ## C7: duplicate registration fails and leaves the registry unchanged -/

/-- C7: registering a tool whose name is already present fails with the
duplicate-name error, and the registry keeps the same size and the same
name-to-tool mapping. -/
theorem register_duplicate_rejected (reg : List (String × ToolDesc)) (tool : ToolDesc)
    (h : reg.any (fun p => p.1 == tool.name) = true) :
    (registry_register reg tool).1 =
      .error ("Tool '" ++ tool.name ++ "' is already registered") ∧
    (registry_register reg tool).2 = reg ∧
    (registry_register reg tool).2.length = reg.length ∧
    ∀ n, registry_get (registry_register reg tool).2 n = registry_get reg n := by
  rw [registry_register, if_pos h]
  exact ⟨rfl, rfl, rfl, fun n => rfl⟩

theorem register_duplicate_rejected_witness :
    ([("echo", ToolDesc.mk "echo" "one")].any
      (fun p => p.1 == (ToolDesc.mk "echo" "two").name) = true) ∧
    (registry_register [("echo", ToolDesc.mk "echo" "one")] (ToolDesc.mk "echo" "two")).2
      = [("echo", ToolDesc.mk "echo" "one")] :=
  ⟨by decide,
   (register_duplicate_rejected [("echo", ToolDesc.mk "echo" "one")]
     (ToolDesc.mk "echo" "two") (by decide)).2.1⟩

/-! ## C4: confirmation decision cache honours its TTL -/

theorem lookup_map_replace (k : String) (v : Bool × Nat) :
    ∀ c : DecisionCache, c.any (fun p => p.1 == k) = true →
      (c.map (fun p => if p.1 == k then (k, v) else p)).lookup k = some v := by
  intro c
  induction c with
  | nil => intro h; simp at h
  | cons hd t ih =>
      intro h
      obtain ⟨a, w⟩ := hd
      cases ha : (a == k) with
      | true =>
          rw [List.map_cons, if_pos (by simpa using ha)]
          simp [List.lookup]
      | false =>
          have ht : t.any (fun p => p.1 == k) = true := by
            have h' := h
            simp only [List.any_cons, ha, Bool.false_or] at h'
            exact h'
          have hk' : (k == a) = false := by
            rw [beq_eq_false_iff_ne] at ha ⊢
            exact fun e => ha e.symm
          rw [List.map_cons,
            if_neg (by rw [show ((a, w).1 == k) = false from ha]; exact Bool.false_ne_true)]
          simp only [List.lookup, hk']
          exact ih ht

theorem lookup_append_one (k : String) (v : Bool × Nat) :
    ∀ c : DecisionCache, c.any (fun p => p.1 == k) = false →
      (c ++ [(k, v)]).lookup k = some v := by
  intro c
  induction c with
  | nil => intro _; simp [List.lookup]
  | cons hd t ih =>
      intro h
      simp only [List.any_cons, Bool.or_eq_false_iff] at h
      have hk' : (k == hd.1) = false := by
        rcases beq_eq_false_iff_ne.mp h.1 with hne
        exact beq_eq_false_iff_ne.mpr (Ne.symm hne)
      simp only [List.cons_append, List.lookup, hk']
      exact ih h.2

theorem lookup_cache_decision (c : DecisionCache) (tool_name : String)
    (decision : Bool) (now duration : Nat) :
    (cache_decision c tool_name decision now duration).lookup tool_name
      = some (decision, now + duration) := by
  rw [cache_decision, dictSet]
  by_cases h : c.any (fun p => p.1 == tool_name) = true
  · rw [if_pos h]
    exact lookup_map_replace tool_name (decision, now + duration) c h
  · rw [if_neg h]
    exact lookup_append_one tool_name (decision, now + duration) c
      (Bool.eq_false_iff.mpr h)

/-- C4: once a decision for tool T is cached at time t with TTL d, a
`request_confirmation` for T before `t + d` returns the cached decision
without prompting, and one strictly after `t + d` ignores the cache and
falls through to a fresh prompt. -/
theorem cached_decision_ttl (c : DecisionCache) (tool_name : String)
    (decision : Bool) (t ttl t2 : Nat) (prompt : Bool × Bool) :
    (t2 < t + ttl →
      request_confirmation (cache_decision c tool_name decision t ttl) tool_name t2 prompt
        = ⟨decision, cache_decision c tool_name decision t ttl, false⟩) ∧
    (t + ttl < t2 →
      (request_confirmation (cache_decision c tool_name decision t ttl) tool_name t2 prompt).prompted
          = true ∧
      (request_confirmation (cache_decision c tool_name decision t ttl) tool_name t2 prompt).decision
          = prompt.1) := by
  have hl := lookup_cache_decision c tool_name decision t ttl
  constructor
  · intro hlt
    have hng : ¬ t2 > t + ttl := by omega
    have hg : get_cached_decision (cache_decision c tool_name decision t ttl) tool_name t2
        = (some decision, cache_decision c tool_name decision t ttl) := by
      simp only [get_cached_decision, hl]
      rw [if_neg hng]
    simp only [request_confirmation, hg]
  · intro hgt
    have hg : get_cached_decision (cache_decision c tool_name decision t ttl) tool_name t2
        = (none, (cache_decision c tool_name decision t ttl).filter
            (fun p => p.1 != tool_name)) := by
      simp only [get_cached_decision, hl]
      rw [if_pos hgt]
    simp only [request_confirmation, hg]
    exact ⟨trivial, trivial⟩

theorem cached_decision_ttl_witness :
    (request_confirmation (cache_decision [] "delete_file" true 100 3600)
        "delete_file" 200 (false, false)
      = ⟨true, cache_decision [] "delete_file" true 100 3600, false⟩) ∧
    (request_confirmation (cache_decision [] "delete_file" true 100 3600)
        "delete_file" 4000 (false, false)).prompted = true :=
  ⟨(cached_decision_ttl [] "delete_file" true 100 3600 200 (false, false)).1 (by decide),
   ((cached_decision_ttl [] "delete_file" true 100 3600 4000 (false, false)).2 (by decide)).1⟩

/-! ## C8: every tool-call outcome becomes exactly one correlated tool message -/

/-- C8: whatever the outcome of a tool-call request (executed, not found,
error, or timeout), `_execute_tool_call` appends exactly one message with
role `tool` and `tool_call_id` equal to the request's id. -/
theorem tool_call_appends_one_message (timeout_s : Nat) (tools : AgentTools)
    (tc : ToolCall) (hist : List Msg) :
    ∃ m : Msg, execute_tool_call timeout_s tools tc hist = hist ++ [m] ∧
      m.role = "tool" ∧ m.tool_call_id = some tc.id := by
  rw [execute_tool_call]
  cases htool : tools tc.fname with
  | none => exact ⟨format_tool_error tc.id tc.fname _, rfl, rfl, rfl⟩
  | some run =>
      cases hrun : run (tc.arguments.getD []) with
      | ok r =>
          simp only [hrun]
          exact ⟨format_tool_result tc.id tc.fname _, rfl, rfl, rfl⟩
      | err e =>
          simp only [hrun]
          exact ⟨format_tool_error tc.id tc.fname _, rfl, rfl, rfl⟩
      | timeout =>
          simp only [hrun]
          exact ⟨format_tool_error tc.id tc.fname _, rfl, rfl, rfl⟩

/-! ## C3: the agent loop is bounded and ends in the fixed apology -/

theorem process_turn_calls_le (backend : Backend) (timeout_s : Nat)
    (tools : AgentTools) :
    ∀ (fuel : Nat) (hist : List Msg) (calls : Nat),
      (process_turn backend timeout_s tools fuel hist calls).2.2 ≤ calls + fuel := by
  intro fuel
  induction fuel with
  | zero => intro hist calls; simp [process_turn]
  | succ n ih =>
      intro hist calls
      rw [process_turn]
      cases backend hist with
      | error e =>
          show calls + 1 ≤ calls + (n + 1)
          omega
      | ok message =>
          show (if message.tool_calls.isEmpty = true
              then (message.content, hist ++ [message], calls + 1)
              else process_turn backend timeout_s tools n
                (execute_calls timeout_s tools message.tool_calls (hist ++ [message]))
                (calls + 1)).2.2 ≤ calls + (n + 1)
          cases hm : message.tool_calls.isEmpty with
          | true =>
              rw [if_pos rfl]
              show calls + 1 ≤ calls + (n + 1)
              omega
          | false =>
              rw [if_neg Bool.false_ne_true]
              exact Nat.le_trans (ih _ _) (by omega)

theorem process_turn_apology (backend : Backend) (timeout_s : Nat)
    (tools : AgentTools)
    (hb : ∀ h : List Msg, ∃ m, backend h = .ok m ∧ m.tool_calls ≠ []) :
    ∀ (fuel : Nat) (hist : List Msg) (calls : Nat),
      (process_turn backend timeout_s tools fuel hist calls).1
        = MAX_ITERATIONS_MESSAGE := by
  intro fuel
  induction fuel with
  | zero => intro hist calls; rfl
  | succ n ih =>
      intro hist calls
      obtain ⟨m, hm, hnc⟩ := hb hist
      have hne : m.tool_calls.isEmpty = false := by
        cases hc : m.tool_calls with
        | nil => exact absurd hc hnc
        | cons a t => rfl
      rw [process_turn, hm]
      show (if m.tool_calls.isEmpty = true
          then (m.content, hist ++ [m], calls + 1)
          else process_turn backend timeout_s tools n
            (execute_calls timeout_s tools m.tool_calls (hist ++ [m]))
            (calls + 1)).1 = MAX_ITERATIONS_MESSAGE
      rw [hne, if_neg Bool.false_ne_true]
      exact ih _ _

/-- C3: `process_message` makes at most `max_iterations` model calls, and
against a backend that requests tool calls on every reply it returns the
fixed apology instead of looping or raising. -/
theorem process_message_bounded (backend : Backend) (timeout_s : Nat)
    (tools : AgentTools) (max_iterations : Nat) (hist : List Msg)
    (user_message : String) :
    (process_message backend timeout_s tools max_iterations hist user_message).2.2
        ≤ max_iterations ∧
    ((∀ h : List Msg, ∃ m, backend h = .ok m ∧ m.tool_calls ≠ []) →
      (process_message backend timeout_s tools max_iterations hist user_message).1
        = MAX_ITERATIONS_MESSAGE) := by
  constructor
  · have := process_turn_calls_le backend timeout_s tools max_iterations
      (hist ++ [{ role := "user", content := user_message }]) 0
    rw [process_message]
    omega
  · intro hb
    rw [process_message]
    exact process_turn_apology backend timeout_s tools hb max_iterations _ 0

/-- A backend that answers every history with the same tool-call request. -/
def alwaysToolBackend : Backend :=
  fun _ => .ok { role := "assistant", content := "",
                 tool_calls := [{ id := "call-1", fname := "echo", arguments := some [] }] }

/-- A tool environment with no tools registered. -/
def noTools : AgentTools := fun _ => none

theorem process_message_bounded_witness :
    (process_message alwaysToolBackend 30 noTools 3 [] "hi").2.2 ≤ 3 ∧
    (process_message alwaysToolBackend 30 noTools 3 [] "hi").1
      = MAX_ITERATIONS_MESSAGE :=
  ⟨(process_message_bounded alwaysToolBackend 30 noTools 3 [] "hi").1,
   (process_message_bounded alwaysToolBackend 30 noTools 3 [] "hi").2
     (fun _ => ⟨_, rfl, List.cons_ne_nil _ _⟩)⟩

/-! ## C9: history truncation does NOT preserve the leading system message -/

/-- A leading system message, as `Agent.__init__` installs. -/
def sysMsg0 : Msg := { role := "system", content := "You are a helpful AI assistant." }

/-- A conversation that begins with the system message. -/
def chatHist0 : List Msg :=
  [sysMsg0,
   { role := "user", content := "hello" },
   { role := "assistant", content := "hi there" }]

/-- C9 counterexample: with `max_chat_history = 2`, appending a user message
to a history that begins with a system message truncates the system message
away — the tail slice keeps only the most recent messages. -/
theorem truncation_drops_system_message :
    chatHist0.head? = some sysMsg0 ∧ sysMsg0.role = "system" ∧
    (add_user_message chatHist0 2 "next").all (fun m => m.role != "system") = true := by
  exact ⟨rfl, rfl, rfl⟩

/-- C9 as amended: truncation keeps only the most recent `max_history`
messages (a suffix — messages are removed from the front, the leading
system message included once it falls outside the window), and the agent's
explicit clear operation does keep the leading system message. -/
theorem truncation_is_tail_slice (hist : List Msg) (max_history : Nat)
    (message : String) (s : Msg) (hmax : 0 < max_history)
    (hhead : hist.head? = some s) (hrole : s.role = "system") :
    (∃ k, add_user_message hist max_history message
        = (hist ++ [({ role := "user", content := message } : Msg)]).drop k) ∧
    (add_user_message hist max_history message).length ≤ max_history ∧
    s ∈ clear_history hist := by
  refine ⟨?_, ?_, ?_⟩
  · rw [add_user_message, enforce_max_history]
    by_cases h : (hist ++ [({ role := "user", content := message } : Msg)]).length > max_history
    · rw [if_pos h, pyTailSlice, if_neg (by omega)]
      exact ⟨_, rfl⟩
    · rw [if_neg h]
      exact ⟨0, rfl⟩
  · rw [add_user_message, enforce_max_history]
    by_cases h : (hist ++ [({ role := "user", content := message } : Msg)]).length > max_history
    · rw [if_pos h, pyTailSlice, if_neg (by omega)]
      rw [List.length_drop]
      omega
    · rw [if_neg h]
      omega
  · rw [clear_history, List.mem_filter]
    constructor
    · cases hist with
      | nil => exact absurd hhead (by simp)
      | cons a t =>
          have : a = s := by
            have := hhead
            rw [List.head?_cons] at this
            exact (Option.some.injEq _ _ ▸ this).symm ▸ rfl
          exact this ▸ List.mem_cons_self a t
    · rw [hrole]
      rfl

theorem truncation_is_tail_slice_witness :
    ((∃ k, add_user_message chatHist0 2 "next"
        = (chatHist0 ++ [({ role := "user", content := "next" } : Msg)]).drop k) ∧
     (add_user_message chatHist0 2 "next").length ≤ 2 ∧
     sysMsg0 ∈ clear_history chatHist0) :=
  truncation_is_tail_slice chatHist0 2 "next" sysMsg0 (by decide) rfl rfl

/-! ## C5: sanitization is idempotent, but misses dicts inside nested lists -/

theorem sanitizeValue_of_sensitive (k : String) (hk : isSensitiveKey k = true)
    (v : PValue) : sanitizeValue k v = .prim "[REDACTED]" := by
  rw [sanitizeValue.eq_def, hk, if_pos rfl]

theorem sanitizeValue_prim (k : String) (hk : isSensitiveKey k = false)
    (s : String) : sanitizeValue k (.prim s) = .prim s := by
  rw [sanitizeValue.eq_def, hk, if_neg Bool.false_ne_true]

theorem sanitizeValue_dict (k : String) (hk : isSensitiveKey k = false)
    (d : List (String × PValue)) :
    sanitizeValue k (.dict d) = .dict (sanitize_parameters d) := by
  rw [sanitizeValue.eq_def, hk, if_neg Bool.false_ne_true]

theorem sanitizeValue_arr (k : String) (hk : isSensitiveKey k = false)
    (xs : List PValue) : sanitizeValue k (.arr xs) = .arr (sanitizeList xs) := by
  rw [sanitizeValue.eq_def, hk, if_neg Bool.false_ne_true]

mutual

theorem sanitize_parameters_idem :
    ∀ d, sanitize_parameters (sanitize_parameters d) = sanitize_parameters d
  | [] => rfl
  | (k, v) :: rest => by
      rw [sanitize_parameters, sanitize_parameters,
        sanitizeValue_idem k v, sanitize_parameters_idem rest]

theorem sanitizeValue_idem :
    ∀ (k : String) (v : PValue), sanitizeValue k (sanitizeValue k v) = sanitizeValue k v
  | k, v => by
      cases hk : isSensitiveKey k with
      | true =>
          rw [sanitizeValue_of_sensitive k hk v, sanitizeValue_of_sensitive k hk]
      | false =>
          cases v with
          | prim s => rw [sanitizeValue_prim k hk s, sanitizeValue_prim k hk s]
          | dict d =>
              rw [sanitizeValue_dict k hk d, sanitizeValue_dict k hk,
                sanitize_parameters_idem d]
          | arr xs =>
              rw [sanitizeValue_arr k hk xs, sanitizeValue_arr k hk,
                sanitizeList_idem xs]

theorem sanitizeList_idem :
    ∀ xs, sanitizeList (sanitizeList xs) = sanitizeList xs
  | [] => rfl
  | .prim s :: rest => by
      rw [sanitizeList, sanitizeList, sanitizeList_idem rest]
  | .dict d :: rest => by
      rw [sanitizeList, sanitizeList, sanitize_parameters_idem d, sanitizeList_idem rest]
  | .arr ys :: rest => by
      rw [sanitizeList, sanitizeList, sanitizeList_idem rest]

end

mutual

theorem cleanDict_sanitize : ∀ d, cleanDict (sanitize_parameters d) = true
  | [] => rfl
  | (k, v) :: rest => by
      rw [sanitize_parameters, cleanDict]
      cases hk : isSensitiveKey k with
      | true =>
          rw [if_pos rfl, sanitizeValue_of_sensitive k hk v, cleanDict_sanitize rest]
          rfl
      | false =>
          rw [if_neg Bool.false_ne_true, cleanValue_sanitize k v hk,
            cleanDict_sanitize rest]
          rfl

theorem cleanValue_sanitize :
    ∀ (k : String) (v : PValue), isSensitiveKey k = false →
      cleanValue (sanitizeValue k v) = true
  | k, .prim s, hk => by
      rw [sanitizeValue_prim k hk s, cleanValue]
  | k, .dict d, hk => by
      rw [sanitizeValue_dict k hk d, cleanValue, cleanDict_sanitize d]
  | k, .arr xs, hk => by
      rw [sanitizeValue_arr k hk xs, cleanValue, cleanList_sanitize xs]

theorem cleanList_sanitize : ∀ xs, cleanList (sanitizeList xs) = true
  | [] => rfl
  | .prim s :: rest => by
      rw [sanitizeList, cleanList, cleanList_sanitize rest]
  | .dict d :: rest => by
      rw [sanitizeList, cleanList, cleanDict_sanitize d, cleanList_sanitize rest]
      rfl
  | .arr ys :: rest => by
      rw [sanitizeList, cleanList, cleanList_sanitize rest]

end

/-- A parameter structure with a sensitive key hidden inside a list nested
in another list: `a = [[ password = x ]]`. -/
def nestedListParams : List (String × PValue) :=
  [("a", .arr [.arr [.dict [("password", .prim "x")]]])]

/-- C5 counterexample: sanitizing `nestedListParams` leaves it unchanged
(the dictionary behind two list levels is never visited), so a sensitive
key survives unredacted at that nesting depth, refuting redaction "at every
nesting depth of the structure". -/
theorem sanitize_misses_nested_list_dict :
    sanitize_parameters nestedListParams = nestedListParams ∧
    isSensitiveKey "password" = true ∧
    deepCleanDict (sanitize_parameters nestedListParams) = false := by
  exact ⟨rfl, rfl, rfl⟩

/-- C5 as amended: sanitization is idempotent; every sensitive key is
redacted at every depth reachable through dictionaries and through
dictionaries that are direct elements of a list (dictionaries behind two
or more list levels are left untouched); and a scalar value under a
non-matching key is unchanged. -/
theorem sanitize_idem_clean_and_frame :
    (∀ p, sanitize_parameters (sanitize_parameters p) = sanitize_parameters p) ∧
    (∀ p, cleanDict (sanitize_parameters p) = true) ∧
    (∀ (k s : String), isSensitiveKey k = false → sanitizeValue k (.prim s) = .prim s) := by
  refine ⟨sanitize_parameters_idem, cleanDict_sanitize, fun k s hk => ?_⟩
  exact sanitizeValue_prim k hk s

theorem sanitize_idem_clean_and_frame_witness :
    sanitize_parameters (sanitize_parameters nestedListParams)
        = sanitize_parameters nestedListParams ∧
    cleanDict (sanitize_parameters nestedListParams) = true ∧
    isSensitiveKey "message" = false ∧
    sanitizeValue "message" (.prim "hi") = .prim "hi" :=
  ⟨sanitize_idem_clean_and_frame.1 nestedListParams,
   sanitize_idem_clean_and_frame.2.1 nestedListParams,
   by rfl,
   sanitize_idem_clean_and_frame.2.2 "message" "hi" (by rfl)⟩

/-! ## C1: Admin-required tools fail closed when the configured level is lower -/

/-- C1: for a tool requiring Admin, when the configured level is not Admin,
`execute_with_security` fails with a permission error, never invokes the
tool, and writes exactly one PermissionDenied audit entry — whether or not
OS-level elevation succeeds. -/
theorem admin_tool_denied_without_admin_level (cfg : MWConfig)
    (cache : DecisionCache) (log : List AuditEntry) (tool_name : String)
    (params : List (String × PValue)) (invoke : Except ToolException PValue)
    (hreq : get_tool_permission_level tool_name = .admin)
    (hcur : cfg.current_level ≠ .admin)
    (hen : cfg.audit_enabled = true) :
    (∃ msg, (execute_with_security cfg cache log tool_name params invoke).result
        = .error (.permissionError msg)) ∧
    (execute_with_security cfg cache log tool_name params invoke).invoked = false ∧
    countPermissionDenied
        (execute_with_security cfg cache log tool_name params invoke).audit
      = countPermissionDenied log + 1 := by
  have hchk : check_permission cfg.current_level tool_name
      (some .admin) = false := by
    rw [check_permission]
    cases hc : cfg.current_level with
    | basic => rfl
    | advanced => rfl
    | admin => exact absurd hc hcur
  simp only [execute_with_security, hreq, hchk, Bool.false_eq_true, if_false,
    log_elevation_request, log_permission_denied, hen, if_true]
  cases helev : cfg.elevation_succeeds with
  | false =>
      simp only [Bool.not_false, if_true]
      refine ⟨⟨_, rfl⟩, by trivial, ?_⟩
      rw [countPermissionDenied_append, countPermissionDenied_append]
      simp [countPermissionDenied]
  | true =>
      simp only [Bool.not_true, Bool.false_eq_true, if_false]
      rw [if_pos hcur]
      refine ⟨⟨_, rfl⟩, by trivial, ?_⟩
      rw [countPermissionDenied_append, countPermissionDenied_append]
      simp [countPermissionDenied]

/-- A configuration with level Advanced, successful OS elevation and
auditing on. -/
def cfgC1 : MWConfig :=
  { current_level := .advanced, elevation_succeeds := true,
    require_confirmation := true, sensitive_actions_require_confirmation := true,
    audit_enabled := true, prompt_decision := true, prompt_remember := false,
    now := 0, exec_duration := 1 }

theorem admin_tool_denied_without_admin_level_witness :
    get_tool_permission_level "delete_file" = .admin ∧
    ((∃ msg, (execute_with_security cfgC1 [] [] "delete_file" []
        (.ok (.prim "gone"))).result = .error (.permissionError msg)) ∧
     (execute_with_security cfgC1 [] [] "delete_file" []
        (.ok (.prim "gone"))).invoked = false ∧
     countPermissionDenied (execute_with_security cfgC1 [] [] "delete_file" []
        (.ok (.prim "gone"))).audit = countPermissionDenied [] + 1) :=
  ⟨by rfl,
   admin_tool_denied_without_admin_level cfgC1 [] [] "delete_file" []
     (.ok (.prim "gone")) (by rfl) (by decide) rfl⟩

/-! ## C6: tool errors are logged then re-raised; denial becomes a normal result -/

theorem log_tool_execution_on (log : List AuditEntry) (tool_name : String)
    (params : List (String × PValue)) (info : String) (success uc : Bool) (et : Nat) :
    log_tool_execution true log tool_name params info success uc et
      = log ++ [.toolExecution tool_name (sanitize_parameters params)
          (if success then truncateResult info else info) success uc et] := by
  rw [log_tool_execution, if_pos rfl]

theorem log_user_confirmation_on (log : List AuditEntry) (tool_name : String)
    (confirmed cached : Bool) :
    log_user_confirmation true log tool_name confirmed cached
      = log ++ [.userConfirmation tool_name confirmed cached] := by
  rw [log_user_confirmation, if_pos rfl]

theorem mwExecTool_error_eq (cfg : MWConfig) (cache : DecisionCache)
    (log : List AuditEntry) (tool_name : String) (params : List (String × PValue))
    (e : String) (uc p : Bool) (hen : cfg.audit_enabled = true) :
    mwExecTool cfg cache log tool_name params (.error (.exception e)) uc p
      = ⟨.error (.toolError e),
         log ++ [.toolExecution tool_name (sanitize_parameters params) e false uc
           cfg.exec_duration],
         cache, true, p⟩ := by
  rw [mwExecTool, hen, log_tool_execution_on, if_neg Bool.false_ne_true]

theorem mwExecTool_permissionError_eq (cfg : MWConfig) (cache : DecisionCache)
    (log : List AuditEntry) (tool_name : String) (params : List (String × PValue))
    (msg : String) (uc p : Bool) :
    mwExecTool cfg cache log tool_name params (.error (.permissionError msg)) uc p
      = ⟨.error (.permissionError msg), log, cache, true, p⟩ := by
  rw [mwExecTool]

theorem execute_with_security_pass (cfg : MWConfig) (cache : DecisionCache)
    (log : List AuditEntry) (tool_name : String) (params : List (String × PValue))
    (invoke : Except ToolException PValue)
    (hchk : check_permission cfg.current_level tool_name
        (some (get_tool_permission_level tool_name)) = true) :
    execute_with_security cfg cache log tool_name params invoke
      = mwConfirmAndRun cfg cache log tool_name params invoke := by
  simp only [execute_with_security]
  rw [if_pos hchk]

theorem countToolExecution_log_user_confirmation (en : Bool)
    (log : List AuditEntry) (tool_name : String) (confirmed cached : Bool) :
    countToolExecution (log_user_confirmation en log tool_name confirmed cached)
      = countToolExecution log := by
  cases en with
  | false => rw [log_user_confirmation, if_neg Bool.false_ne_true]
  | true =>
      rw [log_user_confirmation_on, countToolExecution_append]
      simp [countToolExecution]

/-- C6: when permission passes, a tool exception other than a
`PermissionError` is logged as a failed ToolExecution entry carrying that
error and then re-raised; a tool-raised `PermissionError` is re-raised with
no ToolExecution entry, because `except PermissionError: raise` precedes
the logging handler; the only failure converted into a normal return is
user denial, which yields the structured cancelled-by-user result after
logging a failed ToolExecution. -/
theorem tool_error_logged_and_reraised :
    (∀ (cfg : MWConfig) (cache : DecisionCache) (log : List AuditEntry)
       (tool_name : String) (params : List (String × PValue)) (e : String),
      check_permission cfg.current_level tool_name
          (some (get_tool_permission_level tool_name)) = true →
      (is_confirmation_required cfg.require_confirmation
          cfg.sensitive_actions_require_confirmation tool_name = false ∨
        (request_confirmation cache tool_name cfg.now
          (cfg.prompt_decision, cfg.prompt_remember)).decision = true) →
      cfg.audit_enabled = true →
      (execute_with_security cfg cache log tool_name params
          (.error (.exception e))).result = .error (.toolError e) ∧
      (execute_with_security cfg cache log tool_name params
          (.error (.exception e))).invoked = true ∧
      ∃ uc, (execute_with_security cfg cache log tool_name params
          (.error (.exception e))).audit.getLast?
          = some (.toolExecution tool_name (sanitize_parameters params) e false uc
              cfg.exec_duration)) ∧
    (∀ (cfg : MWConfig) (cache : DecisionCache) (log : List AuditEntry)
       (tool_name : String) (params : List (String × PValue)) (msg : String),
      check_permission cfg.current_level tool_name
          (some (get_tool_permission_level tool_name)) = true →
      (is_confirmation_required cfg.require_confirmation
          cfg.sensitive_actions_require_confirmation tool_name = false ∨
        (request_confirmation cache tool_name cfg.now
          (cfg.prompt_decision, cfg.prompt_remember)).decision = true) →
      (execute_with_security cfg cache log tool_name params
          (.error (.permissionError msg))).result = .error (.permissionError msg) ∧
      (execute_with_security cfg cache log tool_name params
          (.error (.permissionError msg))).invoked = true ∧
      countToolExecution (execute_with_security cfg cache log tool_name params
          (.error (.permissionError msg))).audit = countToolExecution log) ∧
    (∀ (cfg : MWConfig) (cache : DecisionCache) (log : List AuditEntry)
       (tool_name : String) (params : List (String × PValue))
       (invoke : Except ToolException PValue),
      check_permission cfg.current_level tool_name
          (some (get_tool_permission_level tool_name)) = true →
      is_confirmation_required cfg.require_confirmation
          cfg.sensitive_actions_require_confirmation tool_name = true →
      (request_confirmation cache tool_name cfg.now
          (cfg.prompt_decision, cfg.prompt_remember)).decision = false →
      cfg.audit_enabled = true →
      (execute_with_security cfg cache log tool_name params invoke).result
          = .ok (cancelledResult ("User denied execution of " ++ tool_name)) ∧
      (execute_with_security cfg cache log tool_name params invoke).invoked = false ∧
      (execute_with_security cfg cache log tool_name params invoke).audit.getLast?
          = some (.toolExecution tool_name (sanitize_parameters params)
              ("User denied execution of " ++ tool_name) false false
              cfg.exec_duration)) := by
  refine ⟨?_, ?_, ?_⟩
  · intro cfg cache log tool_name params e hchk hconf hen
    rw [execute_with_security_pass cfg cache log tool_name params
      (.error (.exception e)) hchk]
    rcases hconf with hno | hyes
    · rw [mwConfirmAndRun, hno]
      rw [mwExecTool_error_eq cfg cache log tool_name params e false false hen]
      exact ⟨rfl, rfl, ⟨false, getLast?_append_one _ _⟩⟩
    · cases hreq : is_confirmation_required cfg.require_confirmation
          cfg.sensitive_actions_require_confirmation tool_name with
      | false =>
          rw [mwConfirmAndRun, hreq]
          rw [mwExecTool_error_eq cfg cache log tool_name params e false false hen]
          exact ⟨rfl, rfl, ⟨false, getLast?_append_one _ _⟩⟩
      | true =>
          rw [mwConfirmAndRun, hreq]
          simp only [hyes, if_pos rfl, if_true]
          rw [mwExecTool_error_eq cfg _ _ tool_name params e true _ hen]
          exact ⟨rfl, rfl, ⟨true, getLast?_append_one _ _⟩⟩
  · intro cfg cache log tool_name params msg hchk hconf
    rw [execute_with_security_pass cfg cache log tool_name params
      (.error (.permissionError msg)) hchk]
    rcases hconf with hno | hyes
    · rw [mwConfirmAndRun, hno]
      rw [mwExecTool_permissionError_eq cfg cache log tool_name params msg false false]
      exact ⟨rfl, rfl, rfl⟩
    · cases hreq : is_confirmation_required cfg.require_confirmation
          cfg.sensitive_actions_require_confirmation tool_name with
      | false =>
          rw [mwConfirmAndRun, hreq]
          rw [mwExecTool_permissionError_eq cfg cache log tool_name params msg
            false false]
          exact ⟨rfl, rfl, rfl⟩
      | true =>
          rw [mwConfirmAndRun, hreq]
          simp only [hyes, if_pos rfl, if_true]
          rw [mwExecTool_permissionError_eq cfg _ _ tool_name params msg true _]
          exact ⟨rfl, rfl, countToolExecution_log_user_confirmation _ _ _ _ _⟩
  · intro cfg cache log tool_name params invoke hchk hreq hdec hen
    rw [execute_with_security_pass cfg cache log tool_name params invoke hchk]
    rw [mwConfirmAndRun, hreq]
    simp only [hdec, Bool.false_eq_true, if_false, hen, log_user_confirmation_on,
      log_tool_execution_on]
    exact ⟨rfl, rfl, getLast?_append_one _ _⟩

/-- Auditing on, no confirmation demanded: the error path of C6. -/
def cfgC6a : MWConfig :=
  { current_level := .basic, elevation_succeeds := false,
    require_confirmation := false, sensitive_actions_require_confirmation := false,
    audit_enabled := true, prompt_decision := true, prompt_remember := false,
    now := 0, exec_duration := 2 }

/-- Admin level, confirmation demanded, prompt denies: the denial path of C6. -/
def cfgC6b : MWConfig :=
  { current_level := .admin, elevation_succeeds := true,
    require_confirmation := true, sensitive_actions_require_confirmation := true,
    audit_enabled := true, prompt_decision := false, prompt_remember := false,
    now := 0, exec_duration := 2 }

/-- C6 counterexample: a tool whose `invoke` raises a `PermissionError`
(the exception class Python file and OS operations raise on EACCES) is
re-raised by `except PermissionError: raise` before the logging handler
runs, so `execute_with_security` propagates the failure with NO
ToolExecution audit entry — refuting "for every tool whose invoke raises
an error ... writes a ToolExecution audit entry". -/
theorem permission_error_reraised_unlogged :
    (execute_with_security cfgC6a [] [] "echo" []
        (.error (.permissionError "denied by OS"))).result
      = .error (.permissionError "denied by OS") ∧
    (execute_with_security cfgC6a [] [] "echo" []
        (.error (.permissionError "denied by OS"))).invoked = true ∧
    (execute_with_security cfgC6a [] [] "echo" []
        (.error (.permissionError "denied by OS"))).audit = [] := by
  exact ⟨rfl, rfl, rfl⟩

theorem tool_error_logged_and_reraised_witness :
    ((execute_with_security cfgC6a [] [] "echo" [] (.error (.exception "boom"))).result
        = .error (.toolError "boom") ∧
     (execute_with_security cfgC6a [] [] "echo" []
        (.error (.exception "boom"))).invoked = true ∧
     ∃ uc, (execute_with_security cfgC6a [] [] "echo" []
        (.error (.exception "boom"))).audit.getLast?
        = some (.toolExecution "echo" (sanitize_parameters []) "boom" false uc
            cfgC6a.exec_duration)) ∧
    ((execute_with_security cfgC6b [] [] "linux_package_manager" []
        (.error (.permissionError "EACCES"))).result
        = .error (.permissionError "EACCES") ∧
     countToolExecution (execute_with_security cfgC6b [] [] "linux_package_manager" []
        (.error (.permissionError "EACCES"))).audit = countToolExecution []) ∧
    ((execute_with_security cfgC6b [] [] "delete_file" [] (.ok (.prim "gone"))).result
        = .ok (cancelledResult ("User denied execution of " ++ "delete_file")) ∧
     (execute_with_security cfgC6b [] [] "delete_file" [] (.ok (.prim "gone"))).invoked
        = false ∧
     (execute_with_security cfgC6b [] [] "delete_file" [] (.ok (.prim "gone"))).audit.getLast?
        = some (.toolExecution "delete_file" (sanitize_parameters [])
            ("User denied execution of " ++ "delete_file") false false
            cfgC6b.exec_duration)) :=
  ⟨tool_error_logged_and_reraised.1 cfgC6a [] [] "echo" [] "boom"
     (by rfl) (Or.inl (by rfl)) rfl,
   ⟨(tool_error_logged_and_reraised.2.1 cfgC6b [] [] "linux_package_manager" []
       "EACCES" (by rfl) (Or.inl (by rfl))).1,
    (tool_error_logged_and_reraised.2.1 cfgC6b [] [] "linux_package_manager" []
       "EACCES" (by rfl) (Or.inl (by rfl))).2.2⟩,
   tool_error_logged_and_reraised.2.2 cfgC6b [] [] "delete_file" [] (.ok (.prim "gone"))
     (by rfl) (by rfl) (by rfl) rfl⟩

end ComputerManager
